import Mathlib

/-!
Shallow embedding of the reactive core of gabelstaplerwm:
the event multiplexer (`src/main.rs`), the screen geometry model
(`src/wm/layout/mod.rs`), the layout message protocol (`src/wm/msg.rs`)
and the keybinding command types (`gwm-kbd/src/kbd/types.rs`).
-/

/- ### Event multiplexer, from src/main.rs -/

/-- The `POLLIN` bit of a `pollfd`'s `revents` mask (value as on Linux). -/
def POLLIN : Nat := 1

/-- `InputResult` from src/main.rs: the possible input events a call to
`CommandInput::get_next` yields.  Words are byte strings (the program stores
UTF-8 in a Rust `String`; we model the byte level, since the line-terminator
check inspects `as_bytes()`). -/
inductive InputResult where
  /-- The words handed down by the iterator have been read from the input pipe. -/
  | InputRead (words : List (List Nat))
  /-- The X connection's socket has some data. -/
  | XFdReadable
  /-- Poll returned an error. -/
  | PollError
  deriving DecidableEq, Repr

/-- The mutable state of `CommandInput` that `get_next` touches: the string
buffer used for reading (as its byte sequence).  The `BufReader` and the two
`pollfd` structs are modelled as explicit parameters of `getNext`. -/
structure CommandInput where
  buffer : List Nat
  deriving DecidableEq, Repr

/-- The outcome of the `self.reader.read_line(&mut self.buffer)` call, after
the buffer was cleared: either `Ok(n)` with the `n` bytes that were appended
(so the buffer now holds exactly `line`), or `Err(_)` with whatever bytes had
been appended to the cleared buffer before the failure. -/
inductive ReadOutcome where
  | ok (line : List Nat)
  | err (got : List Nat)
  deriving DecidableEq, Repr

/-- Rust `usize` subtraction as it behaves in `n - 1`: a result is produced
only when no underflow occurs.  In debug builds an underflow aborts; in
release builds it wraps to `usize::MAX`, and the wrapped value is then used
as an index far out of bounds, which aborts as well.  Both are modelled by
`none` (a panic). -/
def usizeSub (a b : Nat) : Option Nat :=
  if b ≤ a then some (a - b) else none

/-- Whether a byte is whitespace under Rust's `char::is_whitespace`,
restricted to the ASCII range (0x09–0x0D and 0x20); `split_whitespace`
splits on these. -/
def isWsByte (b : Nat) : Bool :=
  b = 0x20 || b = 0x9 || b = 0xA || b = 0xB || b = 0xC || b = 0xD

/-- Accumulator-passing worker for `splitWhitespace`. -/
def splitWsAux : List Nat → List Nat → List (List Nat)
  | [], acc => if acc.isEmpty then [] else [acc.reverse]
  | b :: bs, acc =>
    if isWsByte b then
      if acc.isEmpty then splitWsAux bs [] else acc.reverse :: splitWsAux bs []
    else
      splitWsAux bs (b :: acc)

/-- Rust's `str::split_whitespace` collected into a vector: maximal runs of
non-whitespace bytes, in order; empty substrings are never produced. -/
def splitWhitespace (l : List Nat) : List (List Nat) :=
  splitWsAux l []

/-- `CommandInput::get_next` from src/main.rs.  Parameters supply what the
operating system decides: `pollRes` is the return value of `poll(3)` (the
`poll` helper reports success iff it is positive), `rev0` and `rev1` are the
`revents` masks of the input-pipe and X-socket `pollfd`s after the call, and
`outcome` is the result of the `read_line` call.  Note the code consults only
`rev0` (`rev1` is never read) and ignores a `read_line` error.  The result is
`none` when the code panics: on `Ok(0)` the index `n - 1` of the cleared
(empty) buffer is out of bounds. -/
def getNext (pollRes : Int) (rev0 : Nat) (rev1 : Nat) (outcome : ReadOutcome)
    (s : CommandInput) : Option (InputResult × CommandInput) :=
  if pollRes > 0 then
    if rev0 &&& POLLIN ≠ 0 then
      match outcome with
      | .ok line =>
        let n := line.length
        match usizeSub n 1 with
        | none => none
        | some i =>
          match line.get? i with
          | none => none
          | some b =>
            let buf := if b = 0xA then line.dropLast else line
            some (.InputRead (splitWhitespace buf), { buffer := buf })
      | .err got =>
        some (.InputRead (splitWhitespace got), { buffer := got })
    else
      some (.XFdReadable, s)
  else
    some (.PollError, s)

/-- `BufRead::read_line` on a pipe whose pending bytes are `pipe`: the line
read (all bytes up to and including the first `0xA`, or all pending bytes
when no newline is pending), paired with the bytes left unread. -/
def readLineBytes : List Nat → List Nat × List Nat
  | [] => ([], [])
  | b :: bs =>
    if b = 0xA then ([0xA], bs)
    else
      let r := readLineBytes bs
      (b :: r.1, r.2)

/-- Spec-side description of the newline stripping: remove a single trailing
line terminator (`0xA`) if present. -/
def stripLineTerminator (l : List Nat) : List Nat :=
  if l.getLast? = some 0xA then l.dropLast else l

/-- The UTF-8 bytes of a string; for the ASCII-only inputs used below the
code points coincide with the bytes. -/
def strBytes (s : String) : List Nat :=
  s.toList.map Char.toNat

/- ### Screen geometry, from src/wm/layout/mod.rs -/

/-- A screen size to be accounted for when arranging windows.  Widths and
heights are `u16` in the source; the constructor only compares and copies,
so plain naturals model it exactly. -/
structure ScreenSize where
  width : Nat
  height : Nat
  deriving DecidableEq, Repr

/-- `ScreenSize::new` from src/wm/layout/mod.rs. -/
def ScreenSize.new (old : ScreenSize) (width height : Nat) : ScreenSize :=
  let new_width := if old.width < width then old.width else width
  let new_height := if old.height < height then old.height else height
  { width := new_width, height := new_height }

/- ### Layout message protocol, from src/wm/msg.rs -/

/-- `MasterFactorMessage` from src/wm/msg.rs: a message manipulating the
master factor of a layout.  Payloads are `u8` in the source; the hypotheses
of the theorems below carry the `≤ 255` bounds where they matter. -/
inductive MasterFactorMessage where
  /-- Set the absolute value of the master factor, saturated to 100. -/
  | Absolute (v : Nat)
  /-- Increase the value of the master factor by the given amount, capped to 100. -/
  | Increase (d : Nat)
  /-- Decrease the value of the master factor by the given amount, saturated to 0. -/
  | Decrease (d : Nat)
  deriving DecidableEq, Repr

/-- Modelled from the spec: the application of a `MasterFactorMessage` to the
master factor of a layout that supports it.  The layout implementations that
consume these messages (the `dstack` module declared in
src/wm/layout/mod.rs) are not among the provided sources; the semantics
follow the spec and the doc comments in src/wm/msg.rs: `Absolute` is
saturated to 100, `Increase` caps the sum to 100, `Decrease` saturates the
difference to 0 (natural subtraction already truncates at 0). -/
def applyMasterFactor (f : Nat) : MasterFactorMessage → Nat
  | .Absolute v => min 100 v
  | .Increase d => min 100 (f + d)
  | .Decrease d => f - d

/- ### Keybinding command types, from gwm-kbd/src/kbd/types.rs -/

/-- `ModeSwitch` from gwm-kbd/src/kbd/types.rs; `Mode` is a `usize` index. -/
inductive ModeSwitch where
  /-- A mode switching action changing the current mode permanently. -/
  | Permanent (m : Nat)
  /-- A temporary mode switching action, changing behaviour only for the next chain. -/
  | Temporary (m : Nat)
  deriving DecidableEq, Repr

/-- `Cmd` from gwm-kbd/src/kbd/types.rs: a command to be executed in
reaction to specific key events. -/
inductive Cmd where
  /-- A string to be passed to a shell to execute the command. -/
  | Shell (repr : String)
  /-- A mode to switch to. -/
  | ModeSwitch (switch : ModeSwitch)
  deriving DecidableEq, Repr

/-- The kinds of `toml::Value` (version 0.4 of the toml crate, as used by
`Cmd::from_value`).  Payloads of the non-string kinds are never inspected by
the code under study; the float payload is carried as its IEEE-754 bit
pattern so the type stays decidable. -/
inductive TomlValue where
  | String (s : String)
  | Integer (i : Int)
  | Float (bits : Nat)
  | Boolean (b : Bool)
  | Datetime (s : String)
  | Array (n : Nat)
  | Table (n : Nat)
  deriving DecidableEq, Repr

/-- The `KeyTypeMismatch` variant of `KbdError` (declared in
gwm-kbd/src/kbd/error.rs, not among the provided sources; its shape —
a binding name and a boolean distinguishing a value-level mismatch from a
structural one — is fixed by its uses in types.rs and by the spec).  Other
variants of the error enum are irrelevant to the code under study. -/
inductive KbdError where
  | KeyTypeMismatch (name : String) (value_level : Bool)
  deriving DecidableEq, Repr

/-- `KbdResult` from gwm-kbd/src/kbd: the crate's result alias. -/
abbrev KbdResult (α : Type) : Type := Except KbdError α

/-- `Cmd::from_value` from gwm-kbd/src/kbd/types.rs: construct a command
from a TOML value. -/
def Cmd.from_value (bind_str : String) (value : TomlValue) : KbdResult Cmd :=
  match value with
  | .String r => .ok (.Shell r)
  | _ => .error (.KeyTypeMismatch bind_str true)

/-- Whether the `spawn` call inside `Cmd::run` succeeds; the code discards
the result (`let _ = …`), so `run`'s behaviour may not depend on it. -/
inductive SpawnOutcome where
  | spawned
  | failed
  deriving DecidableEq, Repr

/-- The externally visible effect of one `Cmd::run` call: either a process
spawned detached (its handle discarded, never waited on, output not
captured) running `program` with `args`, or no effect at all. -/
inductive Effect where
  | spawnDetached (program : String) (args : List String)
  | noEffect
  deriving DecidableEq, Repr

/-- The result of one `Cmd::run` call: its externally visible effect
together with the returned `Option<ModeSwitch>`. -/
abbrev RunResult : Type := Effect × Option ModeSwitch

/-- `Cmd::run` from gwm-kbd/src/kbd/types.rs: run a command and possibly
return a resulting mode switching action to perform.  The `outcome` of the
spawn is supplied by the operating system; the code ignores it. -/
def Cmd.run (outcome : SpawnOutcome) : Cmd → RunResult
  | .Shell r => (.spawnDetached "sh" ["-c", r], none)
  | .ModeSwitch sw => (.noEffect, some sw)

/-- `Keysym` from gwm-kbd/src/kbd/types.rs: a keysym wrapper used for
various trait implementations.  `xkb::Keysym` is a `u32` newtype; its
numeric code is modelled as a natural (the program only ever compares
codes). -/
structure Keysym where
  code : Nat
  deriving DecidableEq, Repr

/-- The `Ord for Keysym` implementation: compare the wrapped numeric codes. -/
def Keysym.cmp (a b : Keysym) : Ordering :=
  compare a.code b.code

/-- The `PartialOrd for Keysym` implementation (`partial_cmp`): always
`Some` of the total comparison. -/
def Keysym.pcmp (a b : Keysym) : Option Ordering :=
  some (Keysym.cmp a b)

/- ### Helper lemmas -/

/-- On a successful poll with the input pipe readable and a successful read
of a nonempty line, `get_next` reaches the `InputRead` arm: the buffer holds
the line with a single trailing newline stripped, and the yielded words are
its whitespace split. -/
theorem getNext_ok_of_ne_nil (pollRes : Int) (rev0 rev1 : Nat) (line : List Nat)
    (s : CommandInput) (hp : 0 < pollRes) (hr : rev0 &&& POLLIN ≠ 0) (hl : line ≠ []) :
    getNext pollRes rev0 rev1 (.ok line) s =
      some (.InputRead (splitWhitespace (stripLineTerminator line)),
        ⟨stripLineTerminator line⟩) := by
  obtain ⟨b, hb⟩ := Option.isSome_iff_exists.mp (List.getLast?_isSome.mpr hl)
  have hlen : 1 ≤ line.length := List.length_pos.mpr hl
  have h1 : usizeSub line.length 1 = some (line.length - 1) := by
    simp [usizeSub, hlen]
  have hget : line.get? (line.length - 1) = some b := by
    rw [List.get?_eq_getElem? line, ← List.getLast?_eq_getElem? line, hb]
  have hstrip : stripLineTerminator line = if b = 0xA then line.dropLast else line := by
    unfold stripLineTerminator
    rw [hb]
    by_cases h10 : b = 0xA <;> simp [h10]
  unfold getNext
  rw [if_pos hp, if_pos hr]
  simp only [h1, hget, ← hstrip]

/-- `read_line` consumes exactly one line: the bytes it reads followed by
the bytes it leaves unread reassemble the pipe's pending content. -/
theorem readLineBytes_append (pipe : List Nat) :
    (readLineBytes pipe).1 ++ (readLineBytes pipe).2 = pipe := by
  induction pipe with
  | nil => rfl
  | cons b bs ih =>
    by_cases h : b = 0xA
    · simp [readLineBytes, h]
    · simp [readLineBytes, h, ih]

/-- Reading a line from a nonempty pipe yields a nonempty byte sequence. -/
theorem readLineBytes_fst_ne_nil (pipe : List Nat) (h : pipe ≠ []) :
    (readLineBytes pipe).1 ≠ [] := by
  cases pipe with
  | nil => exact absurd rfl h
  | cons b bs => by_cases hb : b = 0xA <;> simp [readLineBytes, hb]

/- ### Claim theorems -/

/-- C1 counterexample: a zero-length read (`read_line` returning `Ok(0)`
into the freshly cleared, hence empty, buffer) drives the
line-terminator-stripping branch to evaluate `self.buffer.as_bytes()[n - 1]`
with `n = 0`, an out-of-bounds access modelled as a panic (`none`) — the
call does not yield the `InputRead` event with an empty token sequence that
the claim promises for reads of length zero. -/
theorem c1_zero_length_read_panics :
    getNext 1 POLLIN 0 (.ok []) ⟨[]⟩ = none ∧
      getNext 1 POLLIN 0 (.ok []) ⟨[]⟩ ≠
        some (.InputRead [], ⟨[]⟩) := by
  constructor
  · rfl
  · decide

/-- C1 (amended): for every read of positive length — that is, for every
actual line delivered by `read_line`, including the empty line consisting of
a lone newline — `get_next` yields a command-read (`InputRead`) event and
never panics, and the empty line yields an empty token sequence.  (The
stripping branch is safe for reads of every positive length; a zero-length
read instead panics, see the counterexample.) -/
theorem c1_input_read_total_on_lines (pollRes : Int) (rev0 rev1 : Nat)
    (line : List Nat) (s : CommandInput) (hp : 0 < pollRes)
    (hr : rev0 &&& POLLIN ≠ 0) (hl : line ≠ []) :
    (∃ words st, getNext pollRes rev0 rev1 (.ok line) s =
        some (.InputRead words, st)) ∧
      (line = [0xA] → getNext pollRes rev0 rev1 (.ok line) s =
        some (.InputRead [], ⟨[]⟩)) := by
  refine ⟨⟨_, _, getNext_ok_of_ne_nil pollRes rev0 rev1 line s hp hr hl⟩, ?_⟩
  rintro rfl
  rw [getNext_ok_of_ne_nil pollRes rev0 rev1 [0xA] s hp hr hl]
  rfl

/-- C1 witness: the amended theorem applied to the empty line (a lone
newline byte) on a successful poll with the pipe readable. -/
theorem c1_witness :
    (∃ words st, getNext 1 1 0 (.ok [0xA]) ⟨[]⟩ =
        some (.InputRead words, st)) ∧
      ([0xA] = [0xA] → getNext 1 1 0 (.ok [0xA]) ⟨[]⟩ =
        some (.InputRead [], ⟨[]⟩)) :=
  c1_input_read_total_on_lines 1 1 0 [0xA] ⟨[]⟩ (by decide) (by decide) (by decide)

/-- C2: on a wake with the command channel readable, `get_next` reads
exactly one line off the pipe (what it reads plus what it leaves unread
reassembles the pending bytes), strips at most one trailing newline, splits
the remainder on whitespace, and yields exactly those tokens in an
`InputRead` event. -/
theorem c2_reads_one_line_and_tokenizes (pipe : List Nat) (pollRes : Int)
    (rev0 rev1 : Nat) (s : CommandInput) (hp : 0 < pollRes)
    (hr : rev0 &&& POLLIN ≠ 0) (hn : pipe ≠ []) :
    getNext pollRes rev0 rev1 (.ok (readLineBytes pipe).1) s =
        some (.InputRead (splitWhitespace (stripLineTerminator (readLineBytes pipe).1)),
          ⟨stripLineTerminator (readLineBytes pipe).1⟩) ∧
      (readLineBytes pipe).1 ++ (readLineBytes pipe).2 = pipe :=
  ⟨getNext_ok_of_ne_nil pollRes rev0 rev1 (readLineBytes pipe).1 s hp hr
      (readLineBytes_fst_ne_nil pipe hn),
    readLineBytes_append pipe⟩

/-- C2 witness: the pipe holding `"tag 2 move\n"` yields exactly the tokens
`["tag", "2", "move"]` (as byte strings) and an empty remainder. -/
theorem c2_witness :
    getNext 1 1 0 (.ok (readLineBytes (strBytes "tag 2 move\n")).1) ⟨[]⟩ =
        some (.InputRead [strBytes "tag", strBytes "2", strBytes "move"],
          ⟨strBytes "tag 2 move"⟩) ∧
      (readLineBytes (strBytes "tag 2 move\n")).1 ++
        (readLineBytes (strBytes "tag 2 move\n")).2 = strBytes "tag 2 move\n" := by
  have h := c2_reads_one_line_and_tokenizes (strBytes "tag 2 move\n") 1 1 0 ⟨[]⟩
    (by decide) (by decide) (by decide)
  exact ⟨by rw [h.1]; rfl, h.2⟩

/-- C3: `ScreenSize::new` takes the componentwise minimum of the old size
and the offered dimensions, so neither component of the result exceeds the
corresponding component of the old size. -/
theorem c3_screenSize_new_is_min (a : ScreenSize) (w h : Nat) :
    (ScreenSize.new a w h).width = min a.width w ∧
      (ScreenSize.new a w h).height = min a.height h ∧
      (ScreenSize.new a w h).width ≤ a.width ∧
      (ScreenSize.new a w h).height ≤ a.height := by
  refine ⟨?_, ?_, ?_, ?_⟩ <;> simp only [ScreenSize.new] <;> split <;> omega

/-- C4: applying a `MasterFactorMessage` to a master factor `f ∈ [0,100]`
saturates: `Increase(d)` gives `min(100, f+d)`, `Decrease(d)` gives
`max(0, f-d)` (stated over the integers, where the truncation at 0 is
visible) including when `d > f`, `Absolute(v)` gives `min(100, v)`, and
every result stays in `[0,100]`, hence inside the `u8` range — no overflow
or underflow is possible. -/
theorem c4_master_factor_saturates (f d v : Nat) (hf : f ≤ 100) :
    applyMasterFactor f (.Increase d) = min 100 (f + d) ∧
      (applyMasterFactor f (.Decrease d) : Int) = max 0 ((f : Int) - (d : Int)) ∧
      applyMasterFactor f (.Absolute v) = min 100 v ∧
      applyMasterFactor f (.Increase d) ≤ 100 ∧
      applyMasterFactor f (.Decrease d) ≤ 100 ∧
      applyMasterFactor f (.Absolute v) ≤ 100 := by
  refine ⟨rfl, ?_, rfl, ?_, ?_, ?_⟩ <;> simp only [applyMasterFactor] <;> omega

/-- C4 witness: factor 30, delta 50 (also exceeding the factor), absolute
255 (the largest `u8` payload). -/
theorem c4_witness :
    applyMasterFactor 30 (.Increase 50) = min 100 (30 + 50) ∧
      (applyMasterFactor 30 (.Decrease 50) : Int) = max 0 ((30 : Int) - (50 : Int)) ∧
      applyMasterFactor 30 (.Absolute 255) = min 100 255 ∧
      applyMasterFactor 30 (.Increase 50) ≤ 100 ∧
      applyMasterFactor 30 (.Decrease 50) ≤ 100 ∧
      applyMasterFactor 30 (.Absolute 255) ≤ 100 :=
  c4_master_factor_saturates 30 50 255 (by decide)

/-- C5: `Cmd::from_value` yields `Ok(Shell(s))` exactly on the string value
`s`, and on every non-string value it yields `Err(KeyTypeMismatch(name,
true))` — the error carries the binding name and the value-level flag set to
`true`, for every non-string value kind. -/
theorem c5_from_value_string_only (n : String) (v : TomlValue) :
    (∀ s, v = .String s → Cmd.from_value n v = .ok (.Shell s)) ∧
      ((∀ s, v ≠ .String s) →
        Cmd.from_value n v = .error (.KeyTypeMismatch n true)) := by
  constructor
  · rintro s rfl
    rfl
  · intro hns
    cases v with
    | String s => exact absurd rfl (hns s)
    | Integer i => rfl
    | Float b => rfl
    | Boolean b => rfl
    | Datetime s => rfl
    | Array n => rfl
    | Table n => rfl

/-- C5 witness: the two instances named by the spec — a string value
becomes a shell command, an integer value becomes a value-level type
mismatch naming the binding. -/
theorem c5_witness :
    Cmd.from_value "bind1" (.String "notify-send hi") =
        .ok (.Shell "notify-send hi") ∧
      Cmd.from_value "bind1" (.Integer 5) =
        .error (.KeyTypeMismatch "bind1" true) :=
  ⟨(c5_from_value_string_only "bind1" (.String "notify-send hi")).1
      "notify-send hi" rfl,
    (c5_from_value_string_only "bind1" (.Integer 5)).2 (fun s h => nomatch h)⟩

/-- C6: `Cmd::run` on `Shell(s)` spawns a detached `sh -c s` process,
returns `None`, and its behaviour does not depend on whether the spawn
succeeded (the result of `spawn` is discarded); on `ModeSwitch(sw)` it
performs no external effect and returns `Some(sw)`.  Hence the returned
option is `Some` exactly on the `ModeSwitch` variant. -/
theorem c6_run_contract (o o2 : SpawnOutcome) (r : String) (sw : ModeSwitch)
    (c : Cmd) :
    Cmd.run o (.Shell r) = (.spawnDetached "sh" ["-c", r], none) ∧
      Cmd.run o (.ModeSwitch sw) = (.noEffect, some sw) ∧
      Cmd.run o c = Cmd.run o2 c ∧
      ((Cmd.run o c).2.isSome ↔ ∃ sw2, c = .ModeSwitch sw2) := by
  refine ⟨rfl, rfl, ?_, ?_⟩
  · cases c <;> rfl
  · cases c with
    | Shell s => simp [Cmd.run]
    | ModeSwitch sw2 => simp [Cmd.run]

/-- C6 witness: the contract at a concrete shell command and a concrete
permanent mode switch, under both spawn outcomes. -/
theorem c6_witness :
    Cmd.run .spawned (.Shell "notify-send hi") =
        (.spawnDetached "sh" ["-c", "notify-send hi"], none) ∧
      Cmd.run .spawned (.ModeSwitch (.Permanent 2)) = (.noEffect, some (.Permanent 2)) ∧
      Cmd.run .spawned (.Shell "notify-send hi") =
        Cmd.run .failed (.Shell "notify-send hi") :=
  ⟨(c6_run_contract .spawned .failed "notify-send hi" (.Permanent 2)
      (.Shell "notify-send hi")).1,
    (c6_run_contract .spawned .failed "notify-send hi" (.Permanent 2)
      (.Shell "notify-send hi")).2.1,
    (c6_run_contract .spawned .failed "notify-send hi" (.Permanent 2)
      (.Shell "notify-send hi")).2.2.1⟩

/-- C7: the ordering on `Keysym` is the total order of the wrapped numeric
codes — strictly smaller codes compare `lt`, strictly larger compare `gt`,
equal codes compare `eq` (and `eq` holds only for equal keysyms) — and
`partial_cmp` always returns `Some` of `cmp`, so the partial and total
orders agree on every pair. -/
theorem c7_keysym_order_total (x y : Nat) (a b : Keysym) :
    (x < y → Keysym.cmp ⟨x⟩ ⟨y⟩ = .lt) ∧
      (y < x → Keysym.cmp ⟨x⟩ ⟨y⟩ = .gt) ∧
      (Keysym.cmp a b = .eq ↔ a = b) ∧
      Keysym.pcmp a b = some (Keysym.cmp a b) := by
  refine ⟨?_, ?_, ?_, rfl⟩
  · intro hxy
    exact Nat.compare_eq_lt.mpr hxy
  · intro hyx
    exact Nat.compare_eq_gt.mpr hyx
  · unfold Keysym.cmp
    rw [Nat.compare_eq_eq]
    constructor
    · intro h
      cases a
      cases b
      simpa using h
    · rintro rfl
      rfl

/-- C7 witness: codes 3 < 5 compare `lt` (and 5 over 3 compares `gt`),
equal keysyms of code 7 compare `eq`, and `partial_cmp` is `Some` of `cmp`
there. -/
theorem c7_witness :
    Keysym.cmp ⟨3⟩ ⟨5⟩ = .lt ∧
      Keysym.cmp ⟨5⟩ ⟨3⟩ = .gt ∧
      (Keysym.cmp ⟨7⟩ ⟨7⟩ = .eq ↔ (⟨7⟩ : Keysym) = ⟨7⟩) ∧
      Keysym.pcmp ⟨7⟩ ⟨7⟩ = some (Keysym.cmp ⟨7⟩ ⟨7⟩) := by
  have h1 := c7_keysym_order_total 3 5 ⟨7⟩ ⟨7⟩
  have h2 := c7_keysym_order_total 5 3 ⟨7⟩ ⟨7⟩
  exact ⟨h1.1 (by decide), h2.2.1 (by decide), h1.2.2.1, h1.2.2.2⟩

/-- C8: when the blocking wait fails (`poll` returns a non-positive
result), `get_next` yields a `PollError` event, the handler's state is
unchanged, and no read is performed from either descriptor — the result
does not depend on what a read would have produced, so the caller is free
to call `get_next` again. -/
theorem c8_poll_error_no_read (pollRes : Int) (rev0 rev1 : Nat)
    (o o2 : ReadOutcome) (s : CommandInput) (hp : pollRes ≤ 0) :
    getNext pollRes rev0 rev1 o s = some (.PollError, s) ∧
      getNext pollRes rev0 rev1 o s = getNext pollRes rev0 rev1 o2 s := by
  have hnp : ¬pollRes > 0 := by omega
  constructor <;> simp [getNext, hnp]

/-- C8 witness: `poll` returning `-1` (the error return) with pending pipe
data yields `PollError` and leaves the buffer as it was. -/
theorem c8_witness :
    getNext (-1) 1 1 (.ok [0x61]) ⟨[0x7]⟩ = some (.PollError, ⟨[0x7]⟩) ∧
      getNext (-1) 1 1 (.ok [0x61]) ⟨[0x7]⟩ =
        getNext (-1) 1 1 (.err []) ⟨[0x7]⟩ :=
  c8_poll_error_no_read (-1) 1 1 (.ok [0x61]) (.err []) ⟨[0x7]⟩ (by decide)

/-- C9: when `poll` reports success but the command-pipe entry's `revents`
does not include `POLLIN`, `get_next` returns `XFdReadable` regardless of
the X-socket entry's `revents` (`rev1` is universally quantified and never
consulted), with no pipe data consumed: the state is unchanged and the
result does not depend on what a read would have produced. -/
theorem c9_non_pollin_wake_is_xfd (pollRes : Int) (rev0 rev1 : Nat)
    (o o2 : ReadOutcome) (s : CommandInput) (hp : 0 < pollRes)
    (hr : rev0 &&& POLLIN = 0) :
    getNext pollRes rev0 rev1 o s = some (.XFdReadable, s) ∧
      getNext pollRes rev0 rev1 o s = getNext pollRes rev0 rev1 o2 s := by
  have hnr : ¬rev0 &&& POLLIN ≠ 0 := by simpa using hr
  constructor <;> simp [getNext, hp, hnr]

/-- C9 witness: a wake caused only by `POLLERR | POLLHUP` (mask 0x18) on
the pipe, with the X socket's `revents` clear, is reported as
`XFdReadable` and consumes nothing. -/
theorem c9_witness :
    getNext 1 0x18 0 (.ok [0x61]) ⟨[]⟩ = some (.XFdReadable, ⟨[]⟩) ∧
      getNext 1 0x18 0 (.ok [0x61]) ⟨[]⟩ = getNext 1 0x18 0 (.err []) ⟨[]⟩ :=
  c9_non_pollin_wake_is_xfd 1 0x18 0 (.ok [0x61]) (.err []) ⟨[]⟩
    (by decide) (by decide)

/-- C10: when the command pipe is reported readable but `read_line` fails,
`get_next` still yields an `InputRead` event — tokenized from whatever
bytes the failed read left in the freshly cleared buffer, with no
trailing-newline strip — and never a distinct error event, so a pipe read
failure is invisible to the caller. -/
theorem c10_read_error_still_input_read (pollRes : Int) (rev0 rev1 : Nat)
    (got : List Nat) (s : CommandInput) (hp : 0 < pollRes)
    (hr : rev0 &&& POLLIN ≠ 0) :
    getNext pollRes rev0 rev1 (.err got) s =
      some (.InputRead (splitWhitespace got), ⟨got⟩) := by
  simp [getNext, hp, hr]

/-- C10 witness: a failed read that left `"ab\n"` in the buffer yields
`InputRead` with the token `"ab"`, the trailing newline still in the buffer
(no strip happened). -/
theorem c10_witness :
    getNext 1 1 0 (.err (strBytes "ab\n")) ⟨[]⟩ =
      some (.InputRead [strBytes "ab"], ⟨strBytes "ab\n"⟩) := by
  have h := c10_read_error_still_input_read 1 1 0 (strBytes "ab\n") ⟨[]⟩
    (by decide) (by decide)
  rw [h]
  rfl
